import Mathlib

/-!
Verification of the ACLED Trendfinder API request pipeline (`handler.py`).

This file shallowly embeds the request-to-query compilation pipeline:
the input normalizer (`parse_params` / `collapse_to_simple`), the
validator (the `TrendfinderQuery` pydantic model together with the
constraint semantics of `constr` / `conint` / `Literal` / `date`
declared in the source), the query compiler
(`build_filters_from_validated`, `build_sort_from_validated`, the
derived count / select statements), the debug gate (`is_debug`,
`DEBUG_ALLOWED_KEYS`) and the response assembly of `_handler`.

Modelling conventions:
* Python strings are Lean `String`s; where the source splits or scans a
  string we work on `String.toList` with explicitly recursive splitters
  mirroring the library routines (`urllib.parse.parse_qs`, `str.strip`,
  `int(...)`, ISO date parsing), so that every definition is executable
  and provable by induction.  Percent-decoding inside `parse_qs` is
  elided: it rewrites individual values and never affects which
  occurrence of a parameter is selected, which is all the claims use.
* The external database is pure data (`Db`): a total count and a row
  page, exactly the two results `_handler` reads back.
* JSON serialisation is elided: the response is modelled as the
  structured value that `_handler` passes to `json.dumps`.
-/

namespace Trendfinder

/-- Python whitespace characters relevant to `str.strip` / `int()`
(ASCII subset; exotic unicode spaces are not exercised here). -/
def isPyWs (c : Char) : Bool :=
  c = ' ' || c = '\t' || c = '\n' || c = '\r' || c = '\x0b' || c = '\x0c'

/-- Python `str.strip()` on the underlying character list. -/
def stripList (l : List Char) : List Char :=
  ((l.dropWhile isPyWs).reverse.dropWhile isPyWs).reverse

/-- Python `str.strip()`: trim leading and trailing whitespace. -/
def pstrip (s : String) : String :=
  String.mk (stripList s.toList)

/-- Split a character list on a separator character, keeping empty
segments, as Python `str.split(sep)` does (`"a&&b" -> ["a","","b"]`,
`"" -> [""]`). -/
def splitOnChar (c : Char) : List Char → List (List Char)
  | [] => [[]]
  | x :: xs =>
    if x = c then [] :: splitOnChar c xs
    else
      match splitOnChar c xs with
      | [] => [[x]]
      | g :: gs => (x :: g) :: gs

/-- Split at the first occurrence of a separator, as Python
`str.split(sep, 1)` does when the separator occurs; `none` when the
separator is absent. -/
def splitFirst (c : Char) : List Char → Option (List Char × List Char)
  | [] => none
  | x :: xs =>
    if x = c then some ([], xs)
    else (splitFirst c xs).map (fun p => (x :: p.1, p.2))

/-- Digit run to a number (`none` on an empty or non-digit run). -/
def digitsToNat : List Char → Option Nat
  | [] => none
  | l =>
    if l.all Char.isDigit then
      some (l.foldl (fun acc c => acc * 10 + (c.toNat - '0'.toNat)) 0)
    else none

/-- Python `int(str)`: strip whitespace, optional sign, decimal digits.
(Underscore digit separators accepted by CPython are not modelled; no
claim exercises them.) -/
def parseInt (s : String) : Option Int :=
  match stripList s.toList with
  | '-' :: rest => (digitsToNat rest).map (fun n => -(n : Int))
  | '+' :: rest => (digitsToNat rest).map (fun n => (n : Int))
  | rest => (digitsToNat rest).map (fun n => (n : Int))

/-- A parsed calendar date (`datetime.date`). -/
structure PDate where
  year : Nat
  month : Nat
  day : Nat
deriving DecidableEq, Repr

/-- Gregorian leap-year rule used by `datetime.date`. -/
def isLeap (y : Nat) : Bool :=
  y % 4 = 0 && (y % 100 ≠ 0 || y % 400 = 0)

/-- Days in a month, as enforced by the `datetime.date` constructor. -/
def daysInMonth (y m : Nat) : Nat :=
  if m = 2 then (if isLeap y then 29 else 28)
  else if m = 4 || m = 6 || m = 9 || m = 11 then 30
  else 31

/-- Date parsing as the validation layer performs it on strings:
`YYYY-M[M]-D[D]` (four-digit year, one- or two-digit month and day),
then range checks by the `datetime.date` constructor. -/
def parseDate (s : String) : Option PDate :=
  match splitOnChar '-' s.toList with
  | [y, m, d] =>
    if y.length = 4 && (1 ≤ m.length && m.length ≤ 2) &&
        (1 ≤ d.length && d.length ≤ 2) then
      match digitsToNat y, digitsToNat m, digitsToNat d with
      | some yn, some mn, some dn =>
        if 1 ≤ mn && mn ≤ 12 && 1 ≤ dn && dn ≤ daysInMonth yn mn then
          some ⟨yn, mn, dn⟩
        else none
      | _, _, _ => none
    else none
  | _ => none

/-- Zero-pad to two digits. -/
def pad2 (n : Nat) : String :=
  if n < 10 then "0" ++ toString n else toString n

/-- Zero-pad to four digits. -/
def pad4 (n : Nat) : String :=
  if n < 10 then "000" ++ toString n
  else if n < 100 then "00" ++ toString n
  else if n < 1000 then "0" ++ toString n
  else toString n

/-- Python `date.isoformat()`. -/
def PDate.isoformat (d : PDate) : String :=
  pad4 d.year ++ "-" ++ pad2 d.month ++ "-" ++ pad2 d.day

/-- Runtime configuration read from the environment at import time
(`MAX_PAGE_SIZE`, `DEFAULT_PAGE_SIZE`, `TABLE_NAME`, `DATE_FIELD`,
`DEBUG_KEYS`, `DEBUG_MAX_ROWS`). -/
structure Config where
  MAX_PAGE_SIZE : Nat
  DEFAULT_PAGE_SIZE : Nat
  TABLE_NAME : String
  DATE_FIELD : String
  debugKeys : List String
  DEBUG_MAX_ROWS : Nat
deriving Repr

/-- The documented defaults (`events`, `event_date`, 50/500, empty
debug-key allow-list, debug row cap 50). -/
def defaultConfig : Config :=
  { MAX_PAGE_SIZE := 500
    DEFAULT_PAGE_SIZE := 50
    TABLE_NAME := "events"
    DATE_FIELD := "event_date"
    debugKeys := []
    DEBUG_MAX_ROWS := 50 }

/-- Python `str.lower()` (ASCII range; header names and enum values exercised
here are ASCII). -/
def lowerAscii (s : String) : String :=
  String.mk (s.toList.map Char.toLower)

/-- The `DEBUG_ALLOWED_KEYS` configuration: split the `DEBUG_KEYS` environment string on
commas, strip each entry, drop blanks. -/
def parseDebugKeys (env : String) : List String :=
  (((splitOnChar ',' env.toList).map (fun l => pstrip (String.mk l)))).filter
    (fun k => k ≠ "")

/-! ## Input normalizer (`parse_params`, `collapse_to_simple`) -/

/-- The incoming gateway event, restricted to the keys the handler
reads: `rawQueryString` (HTTP API v2 shape), `queryStringParameters`
(pre-split map shape), `headers`, and the gateway request id. -/
structure ApiEvent where
  rawQueryString : Option String := none
  queryStringParameters : Option (List (String × String)) := none
  headers : List (String × String) := []
  requestId : Option String := none
deriving Repr

/-- The check `"rawQueryString" in event`. -/
def is_http_api_v2 (ev : ApiEvent) : Bool :=
  ev.rawQueryString.isSome

/-- Association-list lookup: Python `dict.get` for maps whose keys are
unique, and first-occurrence lookup otherwise. -/
def getFirst (m : List (String × String)) (k : String) : Option String :=
  (m.find? (fun p => p.1 = k)).map (fun p => p.2)

/-- Python dict-comprehension lookup when duplicate keys may collide
after transformation: the dict keeps the LAST binding. -/
def getLast (m : List (String × String)) (k : String) : Option String :=
  getFirst m.reverse k

/-- Model of `urllib.parse.parse_qsl` with default flags: split the query string
on `&`, split each token at the first `=`, drop tokens without `=` and
tokens whose value is empty (`keep_blank_values=False`).  Values are
carried verbatim (percent-decoding elided, see the file header). -/
def qsPairs (raw : String) : List (String × String) :=
  (splitOnChar '&' raw.toList).filterMap fun tok =>
    match splitFirst '=' tok with
    | some (k, v) => if v.isEmpty then none else some (String.mk k, String.mk v)
    | none => none

/-- Order-preserving de-duplication: the key order of a Python dict
built by repeated insertion (first appearance wins for position). -/
def dedupFirst : List String → List String
  | [] => []
  | k :: ks => k :: (dedupFirst ks).filter (fun k2 => k2 ≠ k)

/-- The dict built by `parse_qs`: parameter name, in order of first
appearance, mapped to the list of all its values in order. -/
def groupPairs (ps : List (String × String)) : List (String × List String) :=
  (dedupFirst (ps.map (fun p => p.1))).map
    (fun k => (k, (ps.filter (fun p => p.1 = k)).map (fun p => p.2)))

/-- The normalizer `parse_params`: HTTP API v2 events are parsed from the raw query
string with `parse_qs`; otherwise every value of the pre-split map is
wrapped in a singleton list. -/
def parse_params (ev : ApiEvent) : List (String × List String) :=
  if is_http_api_v2 ev then
    groupPairs (qsPairs (ev.rawQueryString.getD ""))
  else
    (ev.queryStringParameters.getD []).map (fun p => (p.1, [p.2]))

/-- The collapse step `collapse_to_simple`: keep the first value of each parameter.  (The
Python expression `v[0] if isinstance(v, list) and v else v` returns a
non-string for an empty list; the normalizer never produces one, and we
default to `""` in that unreachable case.) -/
def collapse_to_simple (params : List (String × List String)) : List (String × String) :=
  params.map (fun p => (p.1, p.2.headD ""))

/-- Header map with lower-cased names, as built in `is_debug` and in
`_handler` (`{k.lower(): v for k, v in headers.items()}`; on a name
collision after lower-casing the dict keeps the last value). -/
def lowerHeaders (ev : ApiEvent) : List (String × String) :=
  ev.headers.map (fun p => (lowerAscii p.1, p.2))

/-- The debug key the handler resolves: the `x-debug-key` header if it
is present and non-empty (Python `or` falls through on falsy values),
else the `x-debug-key` query parameter. -/
def suppliedDebugKey (ev : ApiEvent) (params : List (String × List String)) :
    Option String :=
  let fromParams := getFirst (collapse_to_simple params) "x-debug-key"
  match getLast (lowerHeaders ev) "x-debug-key" with
  | some s => if s = "" then fromParams else some s
  | none => fromParams

/-- The gate `is_debug`: true iff a non-empty key was supplied and it is a
member of the allow-list (exact string membership). -/
def is_debug (cfg : Config) (ev : ApiEvent) (params : List (String × List String)) :
    Bool :=
  match suppliedDebugKey ev params with
  | some s => s ≠ "" && cfg.debugKeys.contains s
  | none => false

/-! ## Validator

The `TrendfinderQuery` pydantic model: `constr(strip_whitespace=True,
min_length=..)` strips then length-checks, `conint(ge=.., le=..)`
coerces from string then bound-checks, `Literal[..]` compares for exact
equality, `date` fields parse ISO dates; every field is checked
independently and all violations are collected. -/

/-- One field-level violation: field name, violated constraint,
received value (`none` for a missing required field). -/
structure Violation where
  field : String
  constraint : String
  received : Option String
deriving DecidableEq, Repr

/-- The validated query intent (`TrendfinderQuery` after successful
validation): optional `constr` fields hold their stripped value. -/
structure TrendfinderQuery where
  country : String
  start_date : PDate
  end_date : PDate
  page : Nat
  page_size : Nat
  sort_by : String
  sort_dir : String
  q : Option String
  event_type : Option String
  sub_event_type : Option String
  actor1 : Option String
  actor2 : Option String
deriving DecidableEq, Repr

/-- Field `country: constr(strip_whitespace=True, min_length=2)` (required). -/
def checkCountry (m : List (String × String)) : Except Violation String :=
  match getFirst m "country" with
  | none => .error ⟨"country", "missing", none⟩
  | some v =>
    let s := pstrip v
    if 2 ≤ s.length then .ok s
    else .error ⟨"country", "min_length", some v⟩

/-- A required `date` field. -/
def checkDate (f : String) (m : List (String × String)) : Except Violation PDate :=
  match getFirst m f with
  | none => .error ⟨f, "missing", none⟩
  | some v =>
    match parseDate v with
    | some d => .ok d
    | none => .error ⟨f, "date_parsing", some v⟩

/-- Field `page: conint(ge=1) = 1`. -/
def checkPage (m : List (String × String)) : Except Violation Nat :=
  match getFirst m "page" with
  | none => .ok 1
  | some v =>
    match parseInt v with
    | none => .error ⟨"page", "int_parsing", some v⟩
    | some n =>
      if n < 1 then .error ⟨"page", "greater_than_equal_1", some v⟩
      else .ok n.toNat

/-- Field `page_size: conint(ge=1, le=MAX_PAGE_SIZE) = DEFAULT_PAGE_SIZE`. -/
def checkPageSize (cfg : Config) (m : List (String × String)) : Except Violation Nat :=
  match getFirst m "page_size" with
  | none => .ok cfg.DEFAULT_PAGE_SIZE
  | some v =>
    match parseInt v with
    | none => .error ⟨"page_size", "int_parsing", some v⟩
    | some n =>
      if n < 1 then .error ⟨"page_size", "greater_than_equal_1", some v⟩
      else if (cfg.MAX_PAGE_SIZE : Int) < n then
        .error ⟨"page_size", "less_than_equal_max", some v⟩
      else .ok n.toNat

/-- A `Literal[..]` enum field with a default: exact, case-sensitive
comparison against the closed value set. -/
def checkEnum (f : String) (allowed : List String) (dflt : String)
    (m : List (String × String)) : Except Violation String :=
  match getFirst m f with
  | none => .ok dflt
  | some v =>
    if allowed.contains v then .ok v
    else .error ⟨f, "literal", some v⟩

/-- An optional `constr(strip_whitespace=True, min_length=1[,
max_length=..])` field: absent means `None`; a supplied value is
stripped, then length-checked — an empty string after stripping
violates `min_length`. -/
def checkOptStr (f : String) (maxLen : Option Nat) (m : List (String × String)) :
    Except Violation (Option String) :=
  match getFirst m f with
  | none => .ok none
  | some v =>
    let s := pstrip v
    if s.length < 1 then .error ⟨f, "min_length", some v⟩
    else
      match maxLen with
      | some top =>
        if top < s.length then .error ⟨f, "max_length", some v⟩
        else .ok (some s)
      | none => .ok (some s)

/-- The violations of one checker (empty when the field is valid). -/
def errsOf {α : Type} : Except Violation α → List Violation
  | .error e => [e]
  | .ok _ => []

/-- The value of a successful checker, with a junk default that is
only reached when some checker failed. -/
def okOr {α : Type} (d : α) : Except Violation α → α
  | .ok a => a
  | .error _ => d

/-- All violations of all fields, in model field-declaration order;
every field is checked independently (no short-circuit). -/
def allViolations (cfg : Config) (m : List (String × String)) : List Violation :=
  errsOf (checkCountry m) ++ errsOf (checkDate "start_date" m) ++
  errsOf (checkDate "end_date" m) ++ errsOf (checkPage m) ++
  errsOf (checkPageSize cfg m) ++
  errsOf (checkEnum "sort_by" ["event_date", "fatalities", "country"] "event_date" m) ++
  errsOf (checkEnum "sort_dir" ["asc", "desc"] "desc" m) ++
  errsOf (checkOptStr "q" (some 200) m) ++
  errsOf (checkOptStr "event_type" none m) ++
  errsOf (checkOptStr "sub_event_type" none m) ++
  errsOf (checkOptStr "actor1" none m) ++
  errsOf (checkOptStr "actor2" none m)

/-- Validation `TrendfinderQuery(**simple)`: validated intent on success, the full
violation list on failure (pydantic collects the errors of every field
before raising `ValidationError`). -/
def validate (cfg : Config) (m : List (String × String)) :
    Except (List Violation) TrendfinderQuery :=
  let errs := allViolations cfg m
  if errs.isEmpty then
    .ok { country := okOr "" (checkCountry m)
          start_date := okOr ⟨1970, 1, 1⟩ (checkDate "start_date" m)
          end_date := okOr ⟨1970, 1, 1⟩ (checkDate "end_date" m)
          page := okOr 1 (checkPage m)
          page_size := okOr cfg.DEFAULT_PAGE_SIZE (checkPageSize cfg m)
          sort_by := okOr "event_date"
            (checkEnum "sort_by" ["event_date", "fatalities", "country"] "event_date" m)
          sort_dir := okOr "desc" (checkEnum "sort_dir" ["asc", "desc"] "desc" m)
          q := okOr none (checkOptStr "q" (some 200) m)
          event_type := okOr none (checkOptStr "event_type" none m)
          sub_event_type := okOr none (checkOptStr "sub_event_type" none m)
          actor1 := okOr none (checkOptStr "actor1" none m)
          actor2 := okOr none (checkOptStr "actor2" none m) }
  else .error errs

/-! ## Query compiler (`build_filters_from_validated`,
`build_sort_from_validated`, derived statements) -/

/-- Python truthiness of an optional string: present and non-empty. -/
def present : Option String → Bool
  | some s => s ≠ ""
  | none => false

/-- The `FILTERABLE_FIELDS` dict paired with the attribute values looked up by
`getattr(q, key, None)`, in the dict's fixed insertion order. -/
def filterPairs (q : TrendfinderQuery) : List (String × Option String) :=
  [("country", some q.country), ("event_type", q.event_type),
   ("sub_event_type", q.sub_event_type), ("actor1", q.actor1),
   ("actor2", q.actor2)]

/-- The compiler `build_filters_from_validated`: the WHERE text and, in matching
order, the bound parameter list.  `q.start_date` / `q.end_date` are
`date` objects and hence always truthy, so both date bounds are always
emitted; each truthy filter field contributes one `col = %s` condition
and one parameter; a present `q` contributes one OR-group with its
wildcarded value bound twice. -/
def build_filters_from_validated (cfg : Config) (q : TrendfinderQuery) :
    String × List String :=
  let dateConds := [cfg.DATE_FIELD ++ " >= %s", cfg.DATE_FIELD ++ " < %s"]
  let dateParams := [q.start_date.isoformat, q.end_date.isoformat]
  let eqConds := (filterPairs q).filterMap
    (fun p => if present p.2 then some (p.1 ++ " = %s") else none)
  let eqParams := (filterPairs q).filterMap
    (fun p => if present p.2 then p.2 else none)
  let qConds := if present q.q then ["(title LIKE %s OR notes LIKE %s)"] else []
  let qParams :=
    if present q.q then
      let like := "%" ++ q.q.getD "" ++ "%"
      [like, like]
    else []
  let whereList := dateConds ++ eqConds ++ qConds
  (if whereList.isEmpty then ""
   else " WHERE " ++ String.intercalate " AND " whereList,
   dateParams ++ eqParams ++ qParams)

/-- Lookup `SORTABLE_FIELDS.get(q.sort_by, DATE_FIELD)`: the allow-list maps
each sortable name to itself; anything else falls back to the
configured date column. -/
def sortColumn (cfg : Config) (sb : String) : String :=
  if sb = "event_date" || sb = "fatalities" || sb = "country" then sb
  else cfg.DATE_FIELD

/-- The compiler `build_sort_from_validated`: `DESC` exactly when the lower-cased
direction equals `"desc"`, else `ASC`. -/
def build_sort_from_validated (cfg : Config) (q : TrendfinderQuery) : String :=
  " ORDER BY " ++ sortColumn cfg q.sort_by ++ " " ++
    (if lowerAscii q.sort_dir = "desc" then "DESC" else "ASC")

/-- The fixed projected column list of the page SELECT. -/
def projectedColumns (cfg : Config) : List String :=
  ["event_id", cfg.DATE_FIELD ++ " AS event_date", "country", "admin1",
   "event_type", "sub_event_type", "actor1", "actor2", "fatalities",
   "latitude", "longitude"]

/-- The count statement text (`count_sql`). -/
def countSql (cfg : Config) (q : TrendfinderQuery) : String :=
  "SELECT COUNT(1) AS total FROM " ++ cfg.TABLE_NAME ++
    (build_filters_from_validated cfg q).1

/-- The page statement text (`select_sql`): limit and offset are two
extra trailing placeholders, never literals. -/
def selectSql (cfg : Config) (q : TrendfinderQuery) : String :=
  "SELECT " ++ String.intercalate ", " (projectedColumns cfg) ++ " FROM " ++
    cfg.TABLE_NAME ++ (build_filters_from_validated cfg q).1 ++
    build_sort_from_validated cfg q ++ " LIMIT %s OFFSET %s"

/-! ## Response assembly (`_handler`) -/

/-- A database row, opaque to the pipeline. -/
abbrev Row := List (String × String)

/-- The external store's answers for one request: the `COUNT(1)` total
and the page of rows. -/
structure Db where
  total : Nat
  rows : List Row
deriving DecidableEq, Repr

/-- Preview `str(p)[:64]`: the 64-character parameter preview. -/
def preview64 (s : String) : String :=
  String.mk (s.toList.take 64)

/-- The `meta.debug` diagnostic block. -/
structure DebugBlock where
  where_sql : String
  order_sql : String
  params_preview : List String
  limit_page_size : Nat
  hard_cap : Nat
deriving DecidableEq, Repr

/-- The `meta` object of a success envelope. -/
structure Meta where
  page : Nat
  page_size : Nat
  total : Nat
  total_pages : Nat
  sort_by : String
  sort_dir : String
  filters : List (String × String)
  correlation_id : Option String
  debug : Option DebugBlock
deriving DecidableEq, Repr

/-- The response body, structured as handed to `json.dumps`. -/
inductive RespBody where
  | ok (meta : Meta) (data : List Row)
  | badRequest (message : String) (details : List Violation)
      (correlation_id : Option String)
  | internalError (correlation_id : Option String)
deriving DecidableEq, Repr

/-- The HTTP response (headers elided; no claim inspects them). -/
structure HttpResponse where
  statusCode : Nat
  body : RespBody
deriving DecidableEq, Repr

/-- The correlation id: the `x-correlation-id` header when non-empty
(Python `or` falls through on falsy values), else the gateway request
id. -/
def correlationId (ev : ApiEvent) : Option String :=
  match getLast (lowerHeaders ev) "x-correlation-id" with
  | some s => if s = "" then ev.requestId else some s
  | none => ev.requestId

/-- The handler `_handler`: normalize, validate (reject with 400 and the full
violation list), compile the statements, read the store, apply the
debug row cap, and assemble the envelope with
`total_pages = (total + page_size - 1) // page_size`. -/
def handlerModel (cfg : Config) (ev : ApiEvent) (db : Db) : HttpResponse :=
  let params := parse_params ev
  let corr := correlationId ev
  let debug_on := is_debug cfg ev params
  let simple := collapse_to_simple params
  match validate cfg simple with
  | .error vs =>
    ⟨400, .badRequest "Request did not match the API contract" vs corr⟩
  | .ok q =>
    let built := build_filters_from_validated cfg q
    let where_sql := built.1
    let sql_params := built.2
    let order_sql := build_sort_from_validated cfg q
    let rows := if debug_on then db.rows.take cfg.DEBUG_MAX_ROWS else db.rows
    let total_pages := (db.total + q.page_size - 1) / q.page_size
    ⟨200,
     .ok
       { page := q.page
         page_size := q.page_size
         total := db.total
         total_pages := total_pages
         sort_by := q.sort_by
         sort_dir := q.sort_dir
         filters := simple
         correlation_id := corr
         debug :=
           if debug_on then
             some { where_sql := where_sql
                    order_sql := order_sql
                    params_preview := sql_params.map preview64
                    limit_page_size := q.page_size
                    hard_cap := cfg.MAX_PAGE_SIZE }
           else none }
       rows⟩

/-! ## Theorems -/

/-- A linear-arithmetic core for the ceiling computation, stated over an
abstract product so that it applies to `s * n` atoms. -/
theorem ceil_core (t s M r : Nat) (hdm : M + r = t + s - 1) (hr : r < s)
    (hs : 1 ≤ s) : t ≤ M ∧ M < t + s := by omega

/-- Division `(t + s - 1) / s` in natural-number arithmetic is the rational
ceiling of `t / s`. -/
theorem ceilDiv_eq_rat_ceil (t s : Nat) (hs : 1 ≤ s) :
    (t + s - 1) / s = Int.toNat ⌈(t : ℚ) / (s : ℚ)⌉ := by
  have hs0 : (0 : ℚ) < (s : ℚ) := by exact_mod_cast hs
  have hdm : s * ((t + s - 1) / s) + (t + s - 1) % s = t + s - 1 :=
    Nat.div_add_mod (t + s - 1) s
  have hr : (t + s - 1) % s < s := Nat.mod_lt _ (by omega)
  set n := (t + s - 1) / s with hn
  obtain ⟨h1, h2⟩ := ceil_core t s (s * n) ((t + s - 1) % s) hdm hr hs
  have h1q : (t : ℚ) ≤ (s : ℚ) * (n : ℚ) := by exact_mod_cast h1
  have h2q : (s : ℚ) * (n : ℚ) < (t : ℚ) + s := by exact_mod_cast h2
  have hceil : ⌈(t : ℚ) / (s : ℚ)⌉ = (n : ℤ) := by
    rw [Int.ceil_eq_iff]
    constructor
    · rw [lt_div_iff₀ hs0]
      push_cast
      linarith
    · rw [div_le_iff₀ hs0]
      push_cast
      linarith
  rw [hceil, Int.toNat_natCast]

/-- C2: every success response carries
`total_pages = (total + page_size - 1) // page_size`, and for
`page_size ≥ 1` that integer expression equals the rational ceiling of
`total / page_size`. -/
theorem total_pages_is_ceiling (cfg : Config) (ev : ApiEvent) (db : Db)
    (meta : Meta) (data : List Row)
    (h : handlerModel cfg ev db = ⟨200, .ok meta data⟩)
    (hps : 1 ≤ meta.page_size) :
    meta.total_pages = Int.toNat ⌈(meta.total : ℚ) / (meta.page_size : ℚ)⌉ ∧
    meta.total_pages = (meta.total + meta.page_size - 1) / meta.page_size := by
  cases hv : validate cfg (collapse_to_simple (parse_params ev)) with
  | error vs => simp [handlerModel, hv] at h
  | ok q =>
    simp only [handlerModel, hv, HttpResponse.mk.injEq, RespBody.ok.injEq,
      true_and] at h
    obtain ⟨hmeta, -⟩ := h
    subst hmeta
    exact ⟨ceilDiv_eq_rat_ceil db.total q.page_size hps, rfl⟩

/-- A concrete valid request for witnesses. -/
def evOk : ApiEvent :=
  { rawQueryString :=
      some "country=Kenya&start_date=2025-01-01&end_date=2025-09-01&page=1&page_size=5"
    headers := [("X-Correlation-Id", "local-test-12345")] }

/-- The store's answer used in witnesses. -/
def dbOk : Db := ⟨10, []⟩

/-- The success meta produced for `evOk` / `dbOk`. -/
def metaOk : Meta :=
  { page := 1
    page_size := 5
    total := 10
    total_pages := 2
    sort_by := "event_date"
    sort_dir := "desc"
    filters := [("country", "Kenya"), ("start_date", "2025-01-01"),
                ("end_date", "2025-09-01"), ("page", "1"), ("page_size", "5")]
    correlation_id := some "local-test-12345"
    debug := none }

/-- Witness for C2 at a concrete request (total 10, page size 5). -/
theorem total_pages_is_ceiling_witness :
    handlerModel defaultConfig evOk dbOk = ⟨200, .ok metaOk []⟩ ∧
    (metaOk.total_pages =
        Int.toNat ⌈(metaOk.total : ℚ) / (metaOk.page_size : ℚ)⌉ ∧
      metaOk.total_pages =
        (metaOk.total + metaOk.page_size - 1) / metaOk.page_size) :=
  ⟨by decide,
   total_pages_is_ceiling defaultConfig evOk dbOk metaOk [] (by decide) (by decide)⟩

/-- Every entry of the configured allow-list is non-empty (blank
entries are stripped out when `DEBUG_KEYS` is parsed). -/
theorem mem_parseDebugKeys_ne_empty {env k : String}
    (h : k ∈ parseDebugKeys env) : k ≠ "" := by
  simpa using List.of_mem_filter h

/-- C5: debug mode is active iff the resolved debug key is literally a
member of the configured allow-list, and an empty allow-list makes
debug mode unreachable whatever key is supplied. -/
theorem debug_requires_exact_allowlist_match (env : String) (ev : ApiEvent)
    (params : List (String × List String)) :
    (is_debug { defaultConfig with debugKeys := parseDebugKeys env } ev params = true
      ↔ ∃ s, suppliedDebugKey ev params = some s ∧ s ∈ parseDebugKeys env) ∧
    (parseDebugKeys env = [] →
      is_debug { defaultConfig with debugKeys := parseDebugKeys env } ev params
        = false) := by
  constructor
  · cases hsk : suppliedDebugKey ev params with
    | none => simp [is_debug, hsk]
    | some s =>
      simp only [is_debug, hsk]
      constructor
      · intro hb
        simp only [Bool.and_eq_true, decide_eq_true_eq, List.contains,
          List.elem_iff] at hb
        exact ⟨s, rfl, hb.2⟩
      · rintro ⟨s', hs', hmem⟩
        have hss : s = s' := by injection hs'
        subst hss
        have hne := mem_parseDebugKeys_ne_empty hmem
        simp [List.contains, List.elem_iff, hne, hmem]
  · intro hnil
    cases hsk : suppliedDebugKey ev params with
    | none => simp [is_debug, hsk]
    | some s => simp [is_debug, hsk, hnil]

/-- Witness for C5: empty `DEBUG_KEYS` keeps debug off even though a
key is supplied. -/
theorem debug_requires_exact_allowlist_match_witness :
    parseDebugKeys "" = [] ∧
    is_debug { defaultConfig with debugKeys := parseDebugKeys "" }
      { headers := [("X-Debug-Key", "anything")] } [] = false :=
  ⟨by decide,
   (debug_requires_exact_allowlist_match ""
     { headers := [("X-Debug-Key", "anything")] } []).2 (by decide)⟩

/-- The event supplying a debug key differing only in letter case from
the configured allow-list entry. -/
def evWrongCase : ApiEvent := { headers := [("X-Debug-Key", "secret")] }

/-- C6 counterexample: with allow-list `{"Secret"}` and supplied key
`"secret"`, the key matches case-insensitively, yet debug mode stays
off — the match is NOT case-insensitive. -/
theorem debug_case_insensitive_cx :
    suppliedDebugKey evWrongCase [] = some "secret" ∧
    (parseDebugKeys "Secret").any
      (fun k => lowerAscii k = lowerAscii "secret") = true ∧
    is_debug { defaultConfig with debugKeys := parseDebugKeys "Secret" }
      evWrongCase [] = false := by
  decide

/-- C6 (amended): the supplied debug key (from the `X-Debug-Key` header,
whose NAME is looked up case-insensitively, or the `x-debug-key` query
parameter) is matched case-SENSITIVELY against the allow-list: debug
mode activates iff the key is literally a member. -/
theorem debug_match_is_case_sensitive (env : String) (ev : ApiEvent)
    (params : List (String × List String)) (s : String)
    (hsk : suppliedDebugKey ev params = some s) :
    is_debug { defaultConfig with debugKeys := parseDebugKeys env } ev params = true
      ↔ s ∈ parseDebugKeys env := by
  simp only [is_debug, hsk]
  constructor
  · intro hb
    simp only [Bool.and_eq_true, decide_eq_true_eq, List.contains,
      List.elem_iff] at hb
    exact hb.2
  · intro hmem
    have hne := mem_parseDebugKeys_ne_empty hmem
    simp [List.contains, List.elem_iff, hne, hmem]

/-- Witness for C6 (amended): an exactly matching key activates debug. -/
theorem debug_match_is_case_sensitive_witness :
    suppliedDebugKey { headers := [("X-Debug-Key", "Secret")] } [] = some "Secret" ∧
    (is_debug { defaultConfig with debugKeys := parseDebugKeys "Secret" }
        { headers := [("X-Debug-Key", "Secret")] } [] = true
      ↔ "Secret" ∈ parseDebugKeys "Secret") :=
  ⟨by decide,
   debug_match_is_case_sensitive "Secret" { headers := [("X-Debug-Key", "Secret")] }
     [] "Secret" (by decide)⟩

/-- If any field check produced a violation, validation fails with the
full collected list. -/
theorem validate_error_of_mem (cfg : Config) (m : List (String × String))
    (e : Violation) (he : e ∈ allViolations cfg m) :
    validate cfg m = .error (allViolations cfg m) := by
  have hne : (allViolations cfg m).isEmpty = false := by
    cases h : allViolations cfg m with
    | nil => rw [h] at he; cases he
    | cons a l => simp
  simp [validate, hne]

/-- An optional `constr` field supplied with a value that is empty after
stripping fails its `min_length` check. -/
theorem checkOptStr_empty (f : String) (top : Option Nat)
    (m : List (String × String)) (v : String)
    (hv : getFirst m f = some v) (he : pstrip v = "") :
    checkOptStr f top m = .error ⟨f, "min_length", some v⟩ := by
  simp [checkOptStr, hv, he]

/-- Field `country` supplied with fewer than 2 characters after stripping
fails its `min_length` check. -/
theorem checkCountry_short (m : List (String × String)) (v : String)
    (hv : getFirst m "country" = some v) (hl : (pstrip v).length < 2) :
    checkCountry m = .error ⟨"country", "min_length", some v⟩ := by
  simp only [checkCountry, hv]
  rw [if_neg (by omega)]

/-- C4 counterexample: supplying the optional field `q` as the empty
string is NOT treated as absent — validation reports a `min_length`
violation for `q`. -/
theorem optional_empty_reports_violation_cx :
    validate defaultConfig
      [("country", "Kenya"), ("start_date", "2025-01-01"),
       ("end_date", "2025-02-01"), ("q", "")] =
    .error [⟨"q", "min_length", some ""⟩] := by
  rfl

/-- C4 (amended): an optional string field (`q`, `event_type`,
`sub_event_type`, `actor1`, `actor2`) supplied with a value that is
empty after trimming is reported as a `min_length` violation (it is
treated as absent only when the request arrives as a raw query string,
whose parser drops empty-valued parameters before validation); and
`country`, when present, must satisfy minimum length 2 after trimming. -/
theorem optional_empty_is_violation (cfg : Config) (m : List (String × String)) :
    (∀ f v, f ∈ ["q", "event_type", "sub_event_type", "actor1", "actor2"] →
      getFirst m f = some v → pstrip v = "" →
      ∃ vs, validate cfg m = .error vs ∧
        Violation.mk f "min_length" (some v) ∈ vs) ∧
    (∀ v, getFirst m "country" = some v → (pstrip v).length < 2 →
      ∃ vs, validate cfg m = .error vs ∧
        Violation.mk "country" "min_length" (some v) ∈ vs) := by
  constructor
  · intro f v hf hv he
    have hmem : Violation.mk f "min_length" (some v) ∈ allViolations cfg m := by
      fin_cases hf <;>
        simp [allViolations, errsOf, checkOptStr_empty _ _ m v hv he]
    exact ⟨allViolations cfg m, validate_error_of_mem cfg m _ hmem, hmem⟩
  · intro v hv hl
    have hmem : Violation.mk "country" "min_length" (some v) ∈ allViolations cfg m := by
      simp [allViolations, errsOf, checkCountry_short m v hv hl]
    exact ⟨allViolations cfg m, validate_error_of_mem cfg m _ hmem, hmem⟩

/-- The normalized map with an explicitly empty `q`. -/
def mEmptyQ : List (String × String) :=
  [("country", "Kenya"), ("start_date", "2025-01-01"),
   ("end_date", "2025-02-01"), ("q", "")]

/-- Witness for C4 (amended) at the concrete map with `q` empty. -/
theorem optional_empty_is_violation_witness :
    getFirst mEmptyQ "q" = some "" ∧
    ∃ vs, validate defaultConfig mEmptyQ = .error vs ∧
      Violation.mk "q" "min_length" (some "") ∈ vs :=
  ⟨by decide,
   (optional_empty_is_violation defaultConfig mEmptyQ).1 "q" ""
     (by decide) (by decide) (by decide)⟩

/-- C3: every request that fails validation is answered with status 400,
the `bad_request` envelope, and a `details` list of per-field entries
(field, constraint, received) that is exactly the concatenation of the
independently collected violations of ALL fields — never just the first
one found. -/
theorem validation_failure_reports_all_violations (cfg : Config) (ev : ApiEvent)
    (db : Db) (vs : List Violation)
    (h : validate cfg (collapse_to_simple (parse_params ev)) = .error vs) :
    (handlerModel cfg ev db).statusCode = 400 ∧
    (handlerModel cfg ev db).body =
      .badRequest "Request did not match the API contract" vs (correlationId ev) ∧
    vs = allViolations cfg (collapse_to_simple (parse_params ev)) := by
  have hvs : vs = allViolations cfg (collapse_to_simple (parse_params ev)) := by
    by_cases hne : (allViolations cfg (collapse_to_simple (parse_params ev))).isEmpty
    · simp [validate, hne] at h
    · simp [validate, hne] at h
      exact h.symm
  refine ⟨?_, ?_, hvs⟩ <;> simp [handlerModel, h]

/-- A request missing `country`, with a malformed `start_date` and an
oversized `page_size`. -/
def evBad : ApiEvent :=
  { rawQueryString := some "start_date=bad&end_date=2025-02-01&page_size=9999" }

/-- The three violations collected for `evBad`, across three fields. -/
def vsBad : List Violation :=
  [⟨"country", "missing", none⟩, ⟨"start_date", "date_parsing", some "bad"⟩,
   ⟨"page_size", "less_than_equal_max", some "9999"⟩]

/-- Witness for C3: all three violations of `evBad` are reported in the
one 400 response. -/
theorem validation_failure_reports_all_violations_witness :
    validate defaultConfig (collapse_to_simple (parse_params evBad)) = .error vsBad ∧
    ((handlerModel defaultConfig evBad ⟨0, []⟩).statusCode = 400 ∧
      (handlerModel defaultConfig evBad ⟨0, []⟩).body =
        .badRequest "Request did not match the API contract" vsBad
          (correlationId evBad) ∧
      vsBad = allViolations defaultConfig
        (collapse_to_simple (parse_params evBad))) :=
  ⟨by rfl,
   validation_failure_reports_all_violations defaultConfig evBad ⟨0, []⟩ vsBad
     (by rfl)⟩

/-- Every response to a failed validation names each violating field in
`details`; `page` below 1 and `page_size` outside `[1, MAX_PAGE_SIZE]`
are violations of their field. -/
theorem handler_400_of_violation (cfg : Config) (ev : ApiEvent) (db : Db)
    (e : Violation)
    (he : e ∈ allViolations cfg (collapse_to_simple (parse_params ev))) :
    (handlerModel cfg ev db).statusCode = 400 ∧
    (handlerModel cfg ev db).body =
      .badRequest "Request did not match the API contract"
        (allViolations cfg (collapse_to_simple (parse_params ev)))
        (correlationId ev) := by
  have hv := validate_error_of_mem cfg _ e he
  constructor <;> simp [handlerModel, hv]

/-- C7: a supplied `page` below 1, or a supplied `page_size` outside
`[1, MAX_PAGE_SIZE]`, makes the response a 400 whose details name that
field — the value is never silently clamped into range. -/
theorem out_of_range_paging_rejected (cfg : Config) (ev : ApiEvent) (db : Db) :
    (∀ v n, getFirst (collapse_to_simple (parse_params ev)) "page" = some v →
      parseInt v = some n → n < 1 →
      (handlerModel cfg ev db).statusCode = 400 ∧
      ∃ msg vs corr, (handlerModel cfg ev db).body = .badRequest msg vs corr ∧
        ∃ e ∈ vs, Violation.field e = "page") ∧
    (∀ v n, getFirst (collapse_to_simple (parse_params ev)) "page_size" = some v →
      parseInt v = some n → (n < 1 ∨ (cfg.MAX_PAGE_SIZE : Int) < n) →
      (handlerModel cfg ev db).statusCode = 400 ∧
      ∃ msg vs corr, (handlerModel cfg ev db).body = .badRequest msg vs corr ∧
        ∃ e ∈ vs, Violation.field e = "page_size") := by
  constructor
  · intro v n hv hn hlt
    have hc : checkPage (collapse_to_simple (parse_params ev)) =
        .error ⟨"page", "greater_than_equal_1", some v⟩ := by
      simp [checkPage, hv, hn, hlt]
    have hmem : Violation.mk "page" "greater_than_equal_1" (some v) ∈
        allViolations cfg (collapse_to_simple (parse_params ev)) := by
      simp [allViolations, errsOf, hc]
    obtain ⟨h4, hb⟩ := handler_400_of_violation cfg ev db _ hmem
    exact ⟨h4, _, _, _, hb, ⟨_, hmem, rfl⟩⟩
  · intro v n hv hn hor
    rcases hor with hlt | hgt
    · have hc : checkPageSize cfg (collapse_to_simple (parse_params ev)) =
          .error ⟨"page_size", "greater_than_equal_1", some v⟩ := by
        simp [checkPageSize, hv, hn, hlt]
      have hmem : Violation.mk "page_size" "greater_than_equal_1" (some v) ∈
          allViolations cfg (collapse_to_simple (parse_params ev)) := by
        simp [allViolations, errsOf, hc]
      obtain ⟨h4, hb⟩ := handler_400_of_violation cfg ev db _ hmem
      exact ⟨h4, _, _, _, hb, ⟨_, hmem, rfl⟩⟩
    · have hge : ¬ n < 1 := by
        have := Int.natCast_nonneg cfg.MAX_PAGE_SIZE
        omega
      have hc : checkPageSize cfg (collapse_to_simple (parse_params ev)) =
          .error ⟨"page_size", "less_than_equal_max", some v⟩ := by
        simp [checkPageSize, hv, hn, hge, hgt]
      have hmem : Violation.mk "page_size" "less_than_equal_max" (some v) ∈
          allViolations cfg (collapse_to_simple (parse_params ev)) := by
        simp [allViolations, errsOf, hc]
      obtain ⟨h4, hb⟩ := handler_400_of_violation cfg ev db _ hmem
      exact ⟨h4, _, _, _, hb, ⟨_, hmem, rfl⟩⟩

/-- A valid request except for `page_size` beyond the hard cap. -/
def evBigPage : ApiEvent :=
  { rawQueryString :=
      some "country=Kenya&start_date=2025-01-01&end_date=2025-02-01&page_size=9999" }

/-- Witness for C7: `page_size=9999` with maximum 500 yields a 400
naming `page_size`. -/
theorem out_of_range_paging_rejected_witness :
    getFirst (collapse_to_simple (parse_params evBigPage)) "page_size" = some "9999" ∧
    parseInt "9999" = some 9999 ∧
    ((9999 : Int) < 1 ∨ (defaultConfig.MAX_PAGE_SIZE : Int) < 9999) ∧
    ((handlerModel defaultConfig evBigPage ⟨0, []⟩).statusCode = 400 ∧
      ∃ msg vs corr, (handlerModel defaultConfig evBigPage ⟨0, []⟩).body =
        .badRequest msg vs corr ∧ ∃ e ∈ vs, Violation.field e = "page_size") :=
  ⟨by decide, by decide, by decide,
   (out_of_range_paging_rejected defaultConfig evBigPage ⟨0, []⟩).2 "9999" 9999
     (by decide) (by decide) (by decide)⟩

/-- A checker with no violation is an `ok` carrying the extracted
value. -/
theorem ok_of_errsOf_nil {α : Type} (d : α) (c : Except Violation α)
    (hc : errsOf c = []) : c = .ok (okOr d c) := by
  cases c with
  | ok a => rfl
  | error e => simp [errsOf] at hc

/-- Successful validation means every field checker succeeded, and the
validated fields are exactly the checkers' values. -/
theorem validate_ok_checks (cfg : Config) (m : List (String × String))
    (q : TrendfinderQuery) (h : validate cfg m = .ok q) :
    checkCountry m = .ok q.country ∧
    checkOptStr "q" (some 200) m = .ok q.q ∧
    checkOptStr "event_type" none m = .ok q.event_type ∧
    checkOptStr "sub_event_type" none m = .ok q.sub_event_type ∧
    checkOptStr "actor1" none m = .ok q.actor1 ∧
    checkOptStr "actor2" none m = .ok q.actor2 ∧
    checkPage m = .ok q.page ∧
    checkPageSize cfg m = .ok q.page_size ∧
    checkDate "start_date" m = .ok q.start_date ∧
    checkDate "end_date" m = .ok q.end_date := by
  by_cases he : (allViolations cfg m).isEmpty
  · have hnil : allViolations cfg m = [] := by
      simpa [List.isEmpty_iff] using he
    simp only [allViolations, List.append_eq_nil] at hnil
    obtain ⟨⟨⟨⟨⟨⟨⟨⟨⟨⟨⟨h1, h2⟩, h3⟩, h4⟩, h5⟩, h6⟩, h7⟩, h8⟩, h9⟩, h10⟩, h11⟩, h12⟩
      := hnil
    simp only [validate, he, if_true] at h
    rw [Except.ok.injEq] at h
    subst h
    refine ⟨?_, ?_, ?_, ?_, ?_, ?_, ?_, ?_, ?_, ?_⟩ <;>
      first
        | exact ok_of_errsOf_nil _ _ h1
        | exact ok_of_errsOf_nil _ _ h2
        | exact ok_of_errsOf_nil _ _ h3
        | exact ok_of_errsOf_nil _ _ h4
        | exact ok_of_errsOf_nil _ _ h5
        | exact ok_of_errsOf_nil _ _ h6
        | exact ok_of_errsOf_nil _ _ h7
        | exact ok_of_errsOf_nil _ _ h8
        | exact ok_of_errsOf_nil _ _ h9
        | exact ok_of_errsOf_nil _ _ h10
        | exact ok_of_errsOf_nil _ _ h11
        | exact ok_of_errsOf_nil _ _ h12
  · simp [validate, he] at h

/-- A validated `country` is non-empty (its stripped length is at
least 2). -/
theorem checkCountry_ok_ne (m : List (String × String)) (c : String)
    (h : checkCountry m = .ok c) : c ≠ "" := by
  cases hg : getFirst m "country" with
  | none => simp [checkCountry, hg] at h
  | some v =>
    simp only [checkCountry, hg] at h
    split at h
    · rename_i hc
      injection h with h'
      subst h'
      intro h0
      rw [h0] at hc
      simp at hc
    · cases h

/-- A validated optional string is either absent or non-empty. -/
theorem checkOptStr_ok_ne (f : String) (top : Option Nat)
    (m : List (String × String)) (o : Option String)
    (h : checkOptStr f top m = .ok o) : ∀ s, o = some s → s ≠ "" := by
  cases hg : getFirst m f with
  | none =>
    simp only [checkOptStr, hg] at h
    injection h with h'
    subst h'
    intro s hs
    cases hs
  | some v =>
    simp only [checkOptStr, hg] at h
    split at h
    · cases h
    · rename_i hc
      have hval : o = some (pstrip v) := by
        cases top with
        | none =>
          injection h with h'
          exact h'.symm
        | some t =>
          simp only at h
          split at h
          · cases h
          · injection h with h'
            exact h'.symm
      intro s hs
      rw [hval] at hs
      injection hs with h2
      subst h2
      intro h0
      rw [h0] at hc
      simp at hc

/-- The value shape of every validated query: `country` and every
present optional filter value are non-empty strings. -/
theorem validate_ok_shape (cfg : Config) (m : List (String × String))
    (q : TrendfinderQuery) (h : validate cfg m = .ok q) :
    q.country ≠ "" ∧
    (∀ s, q.q = some s → s ≠ "") ∧
    (∀ s, q.event_type = some s → s ≠ "") ∧
    (∀ s, q.sub_event_type = some s → s ≠ "") ∧
    (∀ s, q.actor1 = some s → s ≠ "") ∧
    (∀ s, q.actor2 = some s → s ≠ "") := by
  obtain ⟨h1, h2, h3, h4, h5, h6, -⟩ := validate_ok_checks cfg m q h
  exact ⟨checkCountry_ok_ne m _ h1, checkOptStr_ok_ne _ _ m _ h2,
    checkOptStr_ok_ne _ _ m _ h3, checkOptStr_ok_ne _ _ m _ h4,
    checkOptStr_ok_ne _ _ m _ h5, checkOptStr_ok_ne _ _ m _ h6⟩

/-- On a none-or-non-empty optional, Python truthiness coincides with
presence. -/
theorem present_eq_isSome (o : Option String)
    (ho : ∀ s, o = some s → s ≠ "") : present o = o.isSome := by
  cases o with
  | none => rfl
  | some s => simp [present, ho s rfl]

/-- The filter clause exactly as the claim words it: `event_date >=`
lower bound, `event_date <` upper bound, one equality condition per
present field of `country, event_type, sub_event_type, actor1, actor2`
in that order, then the `q` OR-group. -/
def claimFilterConds (q : TrendfinderQuery) : List String :=
  ["event_date >= %s", "event_date < %s"] ++ ["country = %s"] ++
  (if q.event_type.isSome then ["event_type = %s"] else []) ++
  (if q.sub_event_type.isSome then ["sub_event_type = %s"] else []) ++
  (if q.actor1.isSome then ["actor1 = %s"] else []) ++
  (if q.actor2.isSome then ["actor2 = %s"] else []) ++
  (if q.q.isSome then ["(title LIKE %s OR notes LIKE %s)"] else [])

/-- The bound parameters exactly as the claim words them: the two date
bounds, one value per present field in the fixed field order, then the
wildcarded `q` value bound twice. -/
def claimFilterParams (q : TrendfinderQuery) : List String :=
  [q.start_date.isoformat, q.end_date.isoformat] ++ [q.country] ++
  q.event_type.toList ++ q.sub_event_type.toList ++
  q.actor1.toList ++ q.actor2.toList ++
  (match q.q with
   | some s => ["%" ++ s ++ "%", "%" ++ s ++ "%"]
   | none => [])

/-- Core of the plan correspondence, from the value shape alone: the
compiled WHERE clause and bound parameters are exactly the fixed
sequence the claim describes. -/
theorem build_filters_plan_of_shape (cfg : Config) (q : TrendfinderQuery)
    (hdf : cfg.DATE_FIELD = "event_date")
    (hcne : q.country ≠ "")
    (hqne : ∀ s, q.q = some s → s ≠ "")
    (hetne : ∀ s, q.event_type = some s → s ≠ "")
    (hstne : ∀ s, q.sub_event_type = some s → s ≠ "")
    (h1ne : ∀ s, q.actor1 = some s → s ≠ "")
    (h2ne : ∀ s, q.actor2 = some s → s ≠ "") :
    build_filters_from_validated cfg q =
      (" WHERE " ++ String.intercalate " AND " (claimFilterConds q),
       claimFilterParams q) := by
  obtain ⟨c, sd, ed, pg, ps, sb, sdir, qq, et, st, a1, a2⟩ := q
  simp only at hcne hqne hetne hstne h1ne h2ne
  rcases qq with _ | sq <;> rcases et with _ | se <;>
    rcases st with _ | ss <;> rcases a1 with _ | s1 <;> rcases a2 with _ | s2 <;>
  · have pc : present (some c) = true := by simp [present, hcne]
    simp only [build_filters_from_validated, filterPairs, claimFilterConds,
      claimFilterParams, hdf, pc]
    refine Prod.ext ?_ ?_ <;>
      simp [present, String.intercalate, hcne,
        fun s h => hqne s h, fun s h => hetne s h, fun s h => hstne s h,
        fun s h => h1ne s h, fun s h => h2ne s h]

/-- C1: for every validated query (under the default date column), the
compiled WHERE clause and bound parameters are exactly the fixed
sequence the claim describes. -/
theorem build_filters_matches_claim_plan (cfg : Config)
    (m : List (String × String)) (q : TrendfinderQuery)
    (hdf : cfg.DATE_FIELD = "event_date")
    (hq : validate cfg m = .ok q) :
    build_filters_from_validated cfg q =
      (" WHERE " ++ String.intercalate " AND " (claimFilterConds q),
       claimFilterParams q) := by
  obtain ⟨hcne, hqne, hetne, hstne, h1ne, h2ne⟩ := validate_ok_shape cfg m q hq
  exact build_filters_plan_of_shape cfg q hdf hcne hqne hetne hstne h1ne h2ne

/-- The head of a filtered list is the first element satisfying the
predicate. -/
theorem head_filter_eq_find {α : Type} (p : α → Bool) (l : List α) :
    (l.filter p).head? = l.find? p := by
  induction l with
  | nil => rfl
  | cons a t ih =>
    by_cases h : p a <;> simp [List.filter_cons, List.find?_cons, h, ih]

/-- Association-list lookup unfolds over a head pair. -/
theorem getFirst_cons (a : String × String) (t : List (String × String))
    (k : String) :
    getFirst (a :: t) k = if a.1 = k then some a.2 else getFirst t k := by
  by_cases h : a.1 = k <;> simp [getFirst, List.find?_cons, h]

/-- Lookup in a list keyed by distinct construction. -/
theorem getFirst_map_keyed (f : String → String) (keys : List String) (k : String) :
    getFirst (keys.map (fun k2 => (k2, f k2))) k =
      if k ∈ keys then some (f k) else none := by
  induction keys with
  | nil => simp [getFirst]
  | cons a t ih =>
    rw [List.map_cons, getFirst_cons]
    by_cases h : a = k
    · subst h; simp
    · have hka : ¬ k = a := fun e => h e.symm
      rw [if_neg h, ih]
      simp [List.mem_cons, hka]

/-- Order-preserving de-duplication preserves membership. -/
theorem mem_dedupFirst (k : String) (l : List String) :
    k ∈ dedupFirst l ↔ k ∈ l := by
  induction l with
  | nil => simp [dedupFirst]
  | cons a t ih =>
    by_cases h : k = a
    · subst h; simp [dedupFirst]
    · simp [dedupFirst, h, List.mem_filter, ih]

/-- First-value-wins through the dict built by `parse_qs`: collapsing
the grouped parameters looks up the FIRST surviving occurrence of a
key. -/
theorem collapse_group_first (ps : List (String × String)) (k : String) :
    getFirst (collapse_to_simple (groupPairs ps)) k =
      (ps.find? (fun p => p.1 = k)).map (fun p => p.2) := by
  have hrw : collapse_to_simple (groupPairs ps) =
      (dedupFirst (ps.map (fun p => p.1))).map
        (fun k2 =>
          (k2, ((ps.filter (fun p => p.1 = k2)).map (fun p => p.2)).headD "")) := by
    simp [collapse_to_simple, groupPairs, List.map_map]
  rw [hrw, getFirst_map_keyed]
  by_cases hk : k ∈ ps.map (fun p => p.1)
  · rw [if_pos ((mem_dedupFirst k _).mpr hk)]
    cases hf : ps.find? (fun p => p.1 = k) with
    | none =>
      exfalso
      rw [List.find?_eq_none] at hf
      obtain ⟨p, hp, hpk⟩ := List.mem_map.mp hk
      exact absurd (by simpa using hpk) (by simpa using hf p hp)
    | some pr =>
      have hh : (ps.filter (fun p => p.1 = k)).head? = some pr := by
        rw [head_filter_eq_find]
        exact hf
      have hd : ((ps.filter (fun p => p.1 = k)).map (fun p => p.2)).headD "" = pr.2 := by
        cases hfl : ps.filter (fun p => p.1 = k) with
        | nil => rw [hfl] at hh; cases hh
        | cons a t =>
          rw [hfl] at hh
          injection hh with h2
          subst h2
          rfl
      exact congrArg some hd
  · rw [if_neg (by simpa [mem_dedupFirst] using hk)]
    have hf : ps.find? (fun p => p.1 = k) = none := by
      rw [List.find?_eq_none]
      intro p hp
      simp only [decide_eq_true_eq]
      intro hpk
      exact hk (List.mem_map.mpr ⟨p, hp, hpk⟩)
    simp [hf]

/-- The parameter occurrences as literally written in the raw query
string (the claim's notion of "first value"): every non-empty
`&`-separated token with its — possibly empty — value. -/
def rawOccurrences (raw : String) : List (String × String) :=
  (splitOnChar '&' raw.toList).filterMap fun tok =>
    if tok.isEmpty then none
    else
      match splitFirst '=' tok with
      | some (k, v) => some (String.mk k, String.mk v)
      | none => some (String.mk tok, "")

/-- C8 counterexample: in `a=&a=2` the first occurrence of `a` carries
the value `""`, yet the normalizer yields `a -> "2"` — the mapping is
not "name to first value" when an earlier occurrence has an empty
value. -/
theorem first_occurrence_not_honored_cx :
    (rawOccurrences "a=&a=2").find? (fun p => p.1 = "a") = some ("a", "") ∧
    getFirst (collapse_to_simple (parse_params { rawQueryString := some "a=&a=2" }))
      "a" = some "2" := by
  decide

/-- C8 (amended): under the raw-query-string shape the normalizer maps
each parameter name to the first occurrence SURVIVING parsing (tokens
with an empty value are dropped by the query-string parser first);
later surviving occurrences are dropped silently, never merged and
never erroring.  Under the pre-split map shape each key's single value
is passed through unchanged. -/
theorem normalizer_first_surviving_value :
    (∀ raw k,
      getFirst (collapse_to_simple (parse_params { rawQueryString := some raw })) k =
        ((qsPairs raw).find? (fun p => p.1 = k)).map (fun p => p.2)) ∧
    (∀ (m : List (String × String)) k,
      getFirst (collapse_to_simple (parse_params { queryStringParameters := some m }))
        k = getFirst m k) := by
  constructor
  · intro raw k
    simp only [parse_params, is_http_api_v2, Option.isSome_some, if_true,
      Option.getD_some]
    exact collapse_group_first (qsPairs raw) k
  · intro m k
    have hcol : collapse_to_simple (m.map (fun p => (p.1, [p.2]))) = m := by
      induction m with
      | nil => rfl
      | cons a t ih => simp [collapse_to_simple] at ih ⊢; exact ih
    simp [parse_params, is_http_api_v2, hcol]

/-- A separator-free list is not split. -/
theorem splitOnChar_no_sep (c : Char) (l : List Char) (h : c ∉ l) :
    splitOnChar c l = [l] := by
  induction l with
  | nil => rfl
  | cons x xs ih =>
    simp only [List.mem_cons, not_or] at h
    rw [splitOnChar, if_neg (fun hxc => h.1 hxc.symm), ih h.2]

/-- Splitting at the first separator after a separator-free prefix. -/
theorem splitFirst_append_sep (c : Char) (a b : List Char) (h : c ∉ a) :
    splitFirst c (a ++ c :: b) = some (a, b) := by
  induction a with
  | nil => simp [splitFirst]
  | cons x xs ih =>
    simp only [List.mem_cons, not_or] at h
    rw [List.cons_append, splitFirst, if_neg (fun hxc : x = c => h.1 hxc.symm),
      ih h.2]
    rfl

/-- Appending strings concatenates the character lists. -/
theorem toList_append (s t : String) : (s ++ t).toList = s.toList ++ t.toList := by
  cases s
  cases t
  rfl

/-- C10: a parameter with an empty value is dropped by the raw-query-
string normalizer (validated as absent), but passed through as the
empty string by the pre-split map shape: the two transports disagree. -/
theorem empty_param_transport_divergence (k : String)
    (hamp : ¬ '&' ∈ k.toList) (heq : ¬ '=' ∈ k.toList) :
    getFirst (collapse_to_simple (parse_params
      { rawQueryString := some (k ++ "=") })) k = none ∧
    getFirst (collapse_to_simple (parse_params
      { queryStringParameters := some [(k, "")] })) k = some "" := by
  constructor
  · have hq : qsPairs (k ++ "=") = [] := by
      have hl : (k ++ "=").toList = k.toList ++ '=' :: [] := by
        rw [toList_append]
        rfl
      have hs : splitOnChar '&' (k.toList ++ '=' :: []) = [k.toList ++ '=' :: []] := by
        apply splitOnChar_no_sep
        simp only [List.mem_append, List.mem_cons, List.not_mem_nil, or_false,
          not_or]
        exact ⟨hamp, by decide⟩
      have hsp : splitFirst '=' (k.data ++ ['=']) = some (k.data, []) :=
        splitFirst_append_sep '=' k.data [] heq
      unfold qsPairs
      rw [hl, hs]
      simp [hsp, splitFirst_append_sep '=' k.toList [] heq]
    simp [parse_params, is_http_api_v2, hq, groupPairs, dedupFirst,
      collapse_to_simple, getFirst]
  · simp [parse_params, is_http_api_v2, collapse_to_simple, getFirst,
      List.find?_cons]

/-- Witness for C10 at the parameter `country`. -/
theorem empty_param_transport_divergence_witness :
    (¬ '&' ∈ "country".toList) ∧ (¬ '=' ∈ "country".toList) ∧
    (getFirst (collapse_to_simple (parse_params
      { rawQueryString := some ("country" ++ "=") })) "country" = none ∧
    getFirst (collapse_to_simple (parse_params
      { queryStringParameters := some [("country", "")] })) "country" = some "") :=
  ⟨by decide, by decide,
   empty_param_transport_divergence "country" (by decide) (by decide)⟩

/-- The normalized map of a valid request with `q` and `actor2`. -/
def mFull : List (String × String) :=
  [("country", "Kenya"), ("start_date", "2025-01-01"),
   ("end_date", "2025-09-01"), ("q", "riot"), ("actor2", "Police")]

/-- The query validated from `mFull`. -/
def qFull : TrendfinderQuery :=
  { country := "Kenya", start_date := ⟨2025, 1, 1⟩, end_date := ⟨2025, 9, 1⟩
    page := 1, page_size := 50, sort_by := "event_date", sort_dir := "desc"
    q := some "riot", event_type := none, sub_event_type := none
    actor1 := none, actor2 := some "Police" }

/-- Witness for C1 at a concrete validated query. -/
theorem build_filters_matches_claim_plan_witness :
    (defaultConfig.DATE_FIELD = "event_date" ∧
      validate defaultConfig mFull = .ok qFull) ∧
    build_filters_from_validated defaultConfig qFull =
      (" WHERE " ++ String.intercalate " AND " (claimFilterConds qFull),
       claimFilterParams qFull) :=
  ⟨⟨rfl, by rfl⟩,
   build_filters_matches_claim_plan defaultConfig mFull qFull rfl (by rfl)⟩

/-- The truthiness profile of the filter fields: which of `country`,
`event_type`, `sub_event_type`, `actor1`, `actor2`, `q` contribute a
condition, independent of their values. -/
def filterProfile (q : TrendfinderQuery) : List Bool :=
  [present (some q.country), present q.event_type, present q.sub_event_type,
   present q.actor1, present q.actor2, present q.q]

/-- A validated query sorting ascending with country `Kenya`. -/
def q1cx : TrendfinderQuery :=
  { country := "Kenya", start_date := ⟨2025, 1, 1⟩, end_date := ⟨2025, 2, 1⟩
    page := 1, page_size := 50, sort_by := "event_date", sort_dir := "asc"
    q := none, event_type := none, sub_event_type := none
    actor1 := none, actor2 := none }

/-- A validated query with the same present filters but country `Ghana`
and the default descending sort. -/
def q2cx : TrendfinderQuery :=
  { country := "Ghana", start_date := ⟨2025, 1, 1⟩, end_date := ⟨2025, 2, 1⟩
    page := 1, page_size := 50, sort_by := "event_date", sort_dir := "desc"
    q := none, event_type := none, sub_event_type := none
    actor1 := none, actor2 := none }

/-- As `q2cx` but with the same sort as `q1cx`. -/
def q3cx : TrendfinderQuery :=
  { country := "Ghana", start_date := ⟨2025, 1, 1⟩, end_date := ⟨2025, 2, 1⟩
    page := 1, page_size := 50, sort_by := "event_date", sort_dir := "asc"
    q := none, event_type := none, sub_event_type := none
    actor1 := none, actor2 := none }

set_option maxRecDepth 4000 in
/-- C9 counterexample: two validated queries with the same set of
present filter fields and different filter values whose page-SELECT
texts nevertheless differ, because the sort direction differs — the
claim's conclusion fails for such a pair. -/
theorem statement_text_depends_on_sort_cx :
    validate defaultConfig
      [("country", "Kenya"), ("start_date", "2025-01-01"),
       ("end_date", "2025-02-01"), ("sort_dir", "asc")] = .ok q1cx ∧
    validate defaultConfig
      [("country", "Ghana"), ("start_date", "2025-01-01"),
       ("end_date", "2025-02-01")] = .ok q2cx ∧
    filterProfile q1cx = filterProfile q2cx ∧
    q1cx.country ≠ q2cx.country ∧
    selectSql defaultConfig q1cx ≠ selectSql defaultConfig q2cx :=
  ⟨by rfl, by rfl, by rfl, by decide, by decide⟩

/-- C9 (amended): the compiled statement texts depend only on which
filters are present — and, for the page SELECT, on the sort field and
direction — never on the filter values: the WHERE text and the count
statement coincide for any two queries with the same filter profile,
and the page SELECT additionally coincides when the sort matches.
Filter values reach the store only through the bound-parameter list. -/
theorem statement_texts_value_independent (cfg : Config)
    (q1 q2 : TrendfinderQuery) (hp : filterProfile q1 = filterProfile q2) :
    (build_filters_from_validated cfg q1).1 =
      (build_filters_from_validated cfg q2).1 ∧
    countSql cfg q1 = countSql cfg q2 ∧
    (q1.sort_by = q2.sort_by → q1.sort_dir = q2.sort_dir →
      selectSql cfg q1 = selectSql cfg q2) := by
  have hl : present (some q1.country) = present (some q2.country) ∧
      present q1.event_type = present q2.event_type ∧
      present q1.sub_event_type = present q2.sub_event_type ∧
      present q1.actor1 = present q2.actor1 ∧
      present q1.actor2 = present q2.actor2 ∧
      present q1.q = present q2.q := by
    simpa [filterProfile] using hp
  obtain ⟨h1, h2, h3, h4, h5, h6⟩ := hl
  have hw : (build_filters_from_validated cfg q1).1 =
      (build_filters_from_validated cfg q2).1 := by
    simp only [build_filters_from_validated, filterPairs, List.filterMap_cons,
      List.filterMap_nil, h1, h2, h3, h4, h5, h6]
  refine ⟨hw, ?_, ?_⟩
  · simp only [countSql, hw]
  · intro hsb hsd
    simp only [selectSql, hw, build_sort_from_validated, hsb, hsd]

/-- Witness for C9 (amended): `q1cx` and `q3cx` differ only in their
country value, and all three statement texts coincide. -/
theorem statement_texts_value_independent_witness :
    filterProfile q1cx = filterProfile q3cx ∧
    ((build_filters_from_validated defaultConfig q1cx).1 =
        (build_filters_from_validated defaultConfig q3cx).1 ∧
      countSql defaultConfig q1cx = countSql defaultConfig q3cx ∧
      (q1cx.sort_by = q3cx.sort_by → q1cx.sort_dir = q3cx.sort_dir →
        selectSql defaultConfig q1cx = selectSql defaultConfig q3cx)) ∧
    selectSql defaultConfig q1cx = selectSql defaultConfig q3cx :=
  ⟨by decide,
   statement_texts_value_independent defaultConfig q1cx q3cx (by decide),
   (statement_texts_value_independent defaultConfig q1cx q3cx (by decide)).2.2
     rfl rfl⟩

end Trendfinder
